import Mathlib

/-!
# Physical aggregate operator and bitmap table scan

A shallow embedding of

* `src/backend/gporca/libgpopt/include/gpopt/operators/CPhysicalAgg.h`
  (the inline members of `CPhysicalAgg`), and
* `src/backend/executor/execBitmapTableScan.c`
  (`readBitmap`, `fetchNextBitmapPage`, `BitmapTableScanRecheckTuple`,
  `BitmapTableScanFetchNext` and their helpers),

followed by the properties proved about them.
-/

namespace gpopt

/-! ## Data model of `CPhysicalAgg.h` -/

/-- Column reference. Identity is by reference; a reference is represented
by a small integer identifier. -/
abbrev CColRef := Nat

/-- Ordered array of column references (`CColRefArray`). -/
abbrev CColRefArray := List CColRef

/-- Aggregate type `COperator::EGbAggType` (local / intermediate / global),
the type of `m_egbaggtype`. -/
inductive EGbAggType where
  | EgbaggtypeGlobal
  | EgbaggtypeIntermediate
  | EgbaggtypeLocal
  deriving DecidableEq, Repr

/-- Modelled from the spec: `CLogicalGbAgg::EAggStage` is declared in
`CLogicalGbAgg.h`; the classification it carries is "two-stage scalar DQA",
"three-stage scalar DQA", or neither. -/
inductive EAggStage where
  | EsTwoStageScalarDQA
  | EsThreeStageScalarDQA
  | EsOthers
  deriving DecidableEq, Repr

/-- Data members of `class CPhysicalAgg`, in declaration order. The
constructor takes one argument per member (`colref_array`, `pdrgpcrMinimal`,
`egbaggtype`, `fGeneratesDuplicates`, `pdrgpcrArgDQA`, `fMultiStage`,
`isAggFromSplitDQA`, `aggStage`, `should_enforce_distribution`).
`m_pdrgpcrArgDQA` may be a null pointer. -/
structure CPhysicalAgg where
  m_pdrgpcr : CColRefArray
  m_egbaggtype : EGbAggType
  m_isAggFromSplitDQA : Bool
  m_aggStage : EAggStage
  m_pdrgpcrMinimal : CColRefArray
  m_fGeneratesDuplicates : Bool
  m_pdrgpcrArgDQA : Option CColRefArray
  m_fMultiStage : Bool
  m_should_enforce_distribution : Bool
  deriving DecidableEq, Repr

/-- Distribution spec variants. -/
inductive CDistributionSpec where
  | Singleton
  | Random
  | Hashed (pdrgpcr : CColRefArray)
  | Replicated
  | Universal
  deriving DecidableEq, Repr

namespace CPhysicalAgg

/-- `CPhysicalAgg::FGeneratesDuplicates`: `return m_fGeneratesDuplicates;` -/
def FGeneratesDuplicates (self : CPhysicalAgg) : Bool :=
  self.m_fGeneratesDuplicates

/-- `CPhysicalAgg::PdrgpcrGroupingCols`: `return m_pdrgpcr;` -/
def PdrgpcrGroupingCols (self : CPhysicalAgg) : CColRefArray :=
  self.m_pdrgpcr

/-- `CPhysicalAgg::PdrgpcrArgDQA`: `return m_pdrgpcrArgDQA;` -/
def PdrgpcrArgDQA (self : CPhysicalAgg) : Option CColRefArray :=
  self.m_pdrgpcrArgDQA

/-- `CPhysicalAgg::Egbaggtype`: `return m_egbaggtype;` -/
def Egbaggtype (self : CPhysicalAgg) : EGbAggType :=
  self.m_egbaggtype

/-- `CPhysicalAgg::FGlobal`:
`return (COperator::EgbaggtypeGlobal == m_egbaggtype);` -/
def FGlobal (self : CPhysicalAgg) : Bool :=
  decide (EGbAggType.EgbaggtypeGlobal = self.m_egbaggtype)

/-- `CPhysicalAgg::FMultiStage`: `return m_fMultiStage;` -/
def FMultiStage (self : CPhysicalAgg) : Bool :=
  self.m_fMultiStage

/-- `CPhysicalAgg::FInputOrderSensitive`: `return true;` -/
def FInputOrderSensitive (_self : CPhysicalAgg) : Bool :=
  true

/-- `CPhysicalAgg::FPassThruStats`: `return false;` -/
def FPassThruStats (_self : CPhysicalAgg) : Bool :=
  false

/-- Modelled from the spec: the body of `CPhysicalAgg::PdsMaximalHashed`
lives in `CPhysicalAgg.cpp`; only its declaration and its comment ("compute a
maximal hashed distribution using the given columns, if no such distribution
can be created, return a Singleton distribution") are in the header.
"Maximal hashed" is the largest subset of the given columns for which a valid
hash distribution exists; `fHashable` says which columns can take part in a
hash distribution, and a hashed distribution needs at least one key column.
The memory pool argument only serves allocation and is dropped. -/
def PdsMaximalHashed (fHashable : CColRef → Bool) (colref_array : CColRefArray) :
    CDistributionSpec :=
  match colref_array.filter fHashable with
  | [] => CDistributionSpec.Singleton
  | c :: cs => CDistributionSpec.Hashed (c :: cs)

end CPhysicalAgg

/-! ### Generic operator handles and the conversion function -/

/-- Generic operator handle (`COperator *`, non-null): the object it points
to is either a physical aggregate (its dynamic type derives from
`CPhysicalAgg`) or an operator of some other kind, identified by its
operator id. -/
inductive COperator where
  | PhysicalAgg (popAgg : CPhysicalAgg)
  | Other (eopid : Nat)
  deriving DecidableEq, Repr

/-- Modelled from the spec: `CUtils::FPhysicalAgg` is defined in `CUtils.cpp`;
it answers whether the handle's tag is that of a physical aggregate
operator. -/
def CUtils.FPhysicalAgg (pop : COperator) : Bool :=
  match pop with
  | COperator.PhysicalAgg _ => true
  | COperator.Other _ => false

/-- C++ `dynamic_cast<CPhysicalAgg *>(pop)`: the same object when its dynamic
type derives from `CPhysicalAgg`, the null pointer (`none`) otherwise. -/
def dynamic_cast_CPhysicalAgg (pop : COperator) : Option CPhysicalAgg :=
  match pop with
  | COperator.PhysicalAgg popAgg => some popAgg
  | COperator.Other _ => none

/-- Outcome of a call that may trip an assertion. -/
inductive AssertResult (α : Type) where
  | returned (a : α)
  | assertionFailure
  deriving DecidableEq, Repr

/-- Modelled from the spec: the `GPOS_ASSERT` macro comes from `gpos/base.h`;
a failed condition "asserts in debug builds" and the macro checks nothing in
release builds. `fDebug` is the build mode (`GPOS_DEBUG`). The result says
whether execution continues past the assertion. -/
def GPOS_ASSERT (fDebug : Bool) (cond : Bool) : Bool :=
  !fDebug || cond

/-- `CPhysicalAgg::PopConvert`:
```
GPOS_ASSERT(CUtils::FPhysicalAgg(pop));
return dynamic_cast<CPhysicalAgg *>(pop);
```
-/
def CPhysicalAgg.PopConvert (fDebug : Bool) (pop : COperator) :
    AssertResult (Option CPhysicalAgg) :=
  if GPOS_ASSERT fDebug (CUtils.FPhysicalAgg pop) then
    AssertResult.returned (dynamic_cast_CPhysicalAgg pop)
  else
    AssertResult.assertionFailure

/-! ### Derived partition maps -/

/-- Derived plan properties of a child, as far as the partition maps go.
The map types themselves (`CPartIndexMap`, `CPartFilterMap`) are not
inspected by the operator and stay abstract. -/
structure CDrvdPropPlan (PIM PFM : Type) where
  m_ppim : PIM
  m_ppfm : PFM

/-- Expression handle: gives access to the derived plan properties of the
children by child index (`exprhdl.Pdpplan(child_index)`). -/
structure CExpressionHandle (PIM PFM : Type) where
  Pdpplan : Nat → CDrvdPropPlan PIM PFM

/-- Modelled from the spec: `CPhysical::PpimPassThruOuter` is defined in
`CPhysical.cpp`; it is the "pass-through from the (outer) child" of the
partition index map, the outer child being child 0. -/
def CPhysical.PpimPassThruOuter {PIM PFM : Type} (exprhdl : CExpressionHandle PIM PFM) : PIM :=
  (exprhdl.Pdpplan 0).m_ppim

/-- Modelled from the spec: `CPhysical::PpfmPassThruOuter` is defined in
`CPhysical.cpp`; it is the "pass-through from the (outer) child" of the
partition filter map, the outer child being child 0. -/
def CPhysical.PpfmPassThruOuter {PIM PFM : Type} (exprhdl : CExpressionHandle PIM PFM) : PFM :=
  (exprhdl.Pdpplan 0).m_ppfm

/-- `CPhysicalAgg::PpimDerive(mp, exprhdl, pdpctxt)`:
`return PpimPassThruOuter(exprhdl);`. The memory pool and the derivation
context are unnamed parameters of the source. -/
def CPhysicalAgg.PpimDerive {PIM PFM MP CTX : Type} (_self : CPhysicalAgg) (_mp : MP)
    (exprhdl : CExpressionHandle PIM PFM) (_pdpctxt : CTX) : PIM :=
  CPhysical.PpimPassThruOuter exprhdl

/-- `CPhysicalAgg::PpfmDerive(mp, exprhdl)`:
`return PpfmPassThruOuter(exprhdl);`. -/
def CPhysicalAgg.PpfmDerive {PIM PFM MP : Type} (_self : CPhysicalAgg) (_mp : MP)
    (exprhdl : CExpressionHandle PIM PFM) : PFM :=
  CPhysical.PpfmPassThruOuter exprhdl

end gpopt

namespace executor

/-! ## Data model of `execBitmapTableScan.c` -/

/-- Result of one step of a bitmap iterator (`TBMIterateResult`): one page of
the bitmap. `ntuples` is a C `int`; a lossy page carries the marker
`BITMAP_IS_LOSSY` there. -/
structure TBMIterateResult where
  blockno : Nat
  ntuples : Int
  recheck : Bool
  deriving DecidableEq, Repr

/-- Node tags used by `readBitmap`. -/
inductive NodeTag where
  | T_TIDBitmap
  | T_StreamBitmap
  | T_Other (tag : Nat)
  deriving DecidableEq, Repr

/-- What the child plan hands back through `MultiExecProcNode`: a tagged
`Node`. The two bitmap kinds carry their pages in iteration order. -/
inductive Node where
  | TIDBitmap (pages : List TBMIterateResult)
  | StreamBitmap (pages : List TBMIterateResult)
  | Other (tag : Nat)
  deriving DecidableEq, Repr

/-- `nodeTag(node)`. -/
def nodeTag (n : Node) : NodeTag :=
  match n with
  | Node.TIDBitmap _ => NodeTag.T_TIDBitmap
  | Node.StreamBitmap _ => NodeTag.T_StreamBitmap
  | Node.Other k => NodeTag.T_Other k

/-- The `IsA(node, tag)` check. -/
def IsA (n : Node) (t : NodeTag) : Bool :=
  decide (nodeTag n = t)

/-- Modelled from the spec: the generic bitmap iterator is implemented in
`tidbitmap.c`, which the spec leaves to the storage layer; this file only
calls it. It is represented by the finite sequence of page results it has
yet to return. -/
structure GenericBMIterator where
  remaining : List TBMIterateResult
  deriving DecidableEq, Repr

/-- Modelled from the spec: `tbm_generic_begin_iterate` (from `tidbitmap.c`)
starts an iteration over all pages of a bitmap. Only bitmap nodes are ever
iterated; any other node has no page. -/
def tbm_generic_begin_iterate (tbm : Node) : GenericBMIterator :=
  match tbm with
  | Node.TIDBitmap pages => ⟨pages⟩
  | Node.StreamBitmap pages => ⟨pages⟩
  | Node.Other _ => ⟨[]⟩

/-- Modelled from the spec: `tbm_generic_iterate` (from `tidbitmap.c`)
returns the next page and advances, or returns NULL when no page is left. -/
def tbm_generic_iterate (it : GenericBMIterator) :
    Option TBMIterateResult × GenericBMIterator :=
  match it.remaining with
  | [] => (none, it)
  | p :: ps => (some p, ⟨ps⟩)

/-- Tuple table slot, as far as this file looks at it: whether it is empty,
and the values it holds otherwise. -/
structure TupleTableSlot where
  tts_isempty : Bool
  tts_values : List Int
  deriving DecidableEq, Repr

/-- Modelled from the spec: `ExecClearTuple` (tuple-table support of the
executor) empties the slot and returns it. -/
def ExecClearTuple (slot : TupleTableSlot) : TupleTableSlot :=
  { slot with tts_isempty := true, tts_values := [] }

/-- The `TupIsNull(slot)` test on a slot pointer: a null pointer or an empty
slot. -/
def TupIsNull (slot : Option TupleTableSlot) : Bool :=
  match slot with
  | none => true
  | some s => s.tts_isempty

/-- Expression context: the tuple under evaluation and the amount of
per-tuple memory in use. -/
structure ExprContext where
  ecxt_scantuple : Option TupleTableSlot
  ecxt_per_tuple_memory : Nat
  deriving DecidableEq, Repr

/-- `ResetExprContext(econtext)`: releases the per-tuple memory. -/
def ResetExprContext (econtext : ExprContext) : ExprContext :=
  { econtext with ecxt_per_tuple_memory := 0 }

/-- Valid table types, the rows of `scanMethods` (heap, AO, AOCS); the
sentinel `TableTypeInvalid` is excluded, so the bound asserted by
`getBitmapTableScanMethod` holds by typing. -/
inductive TableType where
  | TableTypeHeap
  | TableTypeAppendOnly
  | TableTypeAOCS
  deriving DecidableEq, Repr

/-- Names of the access-method callbacks stored in `scanMethods`. -/
inductive ScanFn where
  | BitmapHeapScanNext
  | BitmapHeapScanRecheck
  | BitmapHeapScanBegin
  | BitmapHeapScanEnd
  | BitmapHeapScanReScan
  | BitmapAOScanNext
  | BitmapAOScanBegin
  | BitmapAOScanEnd
  | BitmapAOScanReScan
  deriving DecidableEq, Repr

/-- One row of `scanMethods`; the recheck method may be NULL. -/
structure ScanMethod where
  accessMethod : ScanFn
  recheckMethod : Option ScanFn
  beginScanMethod : ScanFn
  endScanMethod : ScanFn
  reScanMethod : ScanFn
  deriving DecidableEq, Repr

/-- `getBitmapTableScanMethod`: the row of `scanMethods` for a table type. -/
def getBitmapTableScanMethod (tableType : TableType) : ScanMethod :=
  match tableType with
  | TableType.TableTypeHeap =>
      ⟨ScanFn.BitmapHeapScanNext, some ScanFn.BitmapHeapScanRecheck,
        ScanFn.BitmapHeapScanBegin, ScanFn.BitmapHeapScanEnd, ScanFn.BitmapHeapScanReScan⟩
  | TableType.TableTypeAppendOnly =>
      ⟨ScanFn.BitmapAOScanNext, none,
        ScanFn.BitmapAOScanBegin, ScanFn.BitmapAOScanEnd, ScanFn.BitmapAOScanReScan⟩
  | TableType.TableTypeAOCS =>
      ⟨ScanFn.BitmapAOScanNext, none,
        ScanFn.BitmapAOScanBegin, ScanFn.BitmapAOScanEnd, ScanFn.BitmapAOScanReScan⟩

/-- Fields of `BitmapTableScanState` that this file reads or writes, with
the nested `ss` / `ss.ps` members flattened. `P` is the state of the child
plan (`outerPlanState`), `Q` the initialised qual (`bitmapqualorig`).
Pointers that may be NULL are options. -/
structure BitmapTableScanState (P Q : Type) where
  ss_ScanTupleSlot : TupleTableSlot
  ps_ExprContext : ExprContext
  tableType : TableType
  lefttree : P
  tbm : Option Node
  tbmiterator : Option GenericBMIterator
  tbmres : Option TBMIterateResult
  iterator : Option Nat
  needNewBitmapPage : Bool
  isLossyBitmapPage : Bool
  recheckTuples : Bool
  bitmapqualorig : Q

/-- Calls into other modules, recorded to tell which of them a function
makes. -/
inductive ExternalCall where
  | MultiExecProcNode
  | ExecQual
  | ExecScan
  deriving DecidableEq, Repr

/-- A scan state together with the record of the calls made so far. -/
structure Machine (P Q : Type) where
  scan : BitmapTableScanState P Q
  calls : List ExternalCall

/-- The other modules the file calls into, and the constants it takes from
headers. `MultiExecProcNode` runs the child plan and returns its result
pointer (possibly NULL); `ExecQual` evaluates a qual in an expression
context; `ExecScan` runs the table access method with a recheck method and
returns a slot pointer. `USE_ASSERT_CHECKING` says whether `Assert` is
compiled in. -/
structure Env (P Q : Type) where
  MultiExecProcNode : P → Option Node × P
  ExecQual : Q → ExprContext → Bool → Bool
  ExecScan : BitmapTableScanState P Q → ScanFn → Option ScanFn →
    Option TupleTableSlot × BitmapTableScanState P Q
  BITMAP_IS_LOSSY : Int
  USE_ASSERT_CHECKING : Bool

/-- How a call ends: it returns a value, raises `elog(ERROR, msg)`, trips an
`Assert`, or (for the fuel-bounded loop) has not finished. The machine is
the one reached at that point. -/
inductive Outcome (σ α : Type) where
  | ok (a : α) (s : σ)
  | elogERROR (msg : String) (s : σ)
  | trap (s : σ)
  | outOfFuel

/-! ## Functions of `execBitmapTableScan.c` -/

/-- `freeBitmapState`. -/
def freeBitmapState {P Q : Type} (scanstate : BitmapTableScanState P Q) :
    BitmapTableScanState P Q :=
  let s1 := { scanstate with tbm := none }
  match s1.tbmiterator with
  | some _ => { s1 with tbmiterator := none, tbmres := none }
  | none => s1

/-- `BitmapTableScanPlanQualTuple`: clears the scan tuple slot and returns
it. -/
def BitmapTableScanPlanQualTuple {P Q : Type} (node : Machine P Q) :
    TupleTableSlot × Machine P Q :=
  let slot := ExecClearTuple node.scan.ss_ScanTupleSlot
  (slot, { node with scan := { node.scan with ss_ScanTupleSlot := slot } })

/-- `readBitmap`. -/
def readBitmap {P Q : Type} (env : Env P Q) (m : Machine P Q) :
    Outcome (Machine P Q) Unit :=
  match m.scan.tbm with
  | some _ => Outcome.ok () m
  | none =>
    let r := env.MultiExecProcNode m.scan.lefttree
    let m1 : Machine P Q :=
      { scan := { m.scan with lefttree := r.2 },
        calls := m.calls ++ [ExternalCall.MultiExecProcNode] }
    let bad : Bool :=
      match r.1 with
      | none => true
      | some tbm => !(IsA tbm NodeTag.T_TIDBitmap || IsA tbm NodeTag.T_StreamBitmap)
    if bad then
      Outcome.elogERROR "unrecognized result from subplan" m1
    else
      Outcome.ok () { m1 with scan := { m1.scan with tbm := r.1, needNewBitmapPage := true } }

/-- The loop `do tbmres = tbm_generic_iterate(it); while (tbmres &&
tbmres->ntuples == 0);` of `fetchNextBitmapPage`, on the pages the iterator
has left. -/
def iterateSkipEmpty (remaining : List TBMIterateResult) :
    Option TBMIterateResult × GenericBMIterator :=
  match remaining with
  | [] => (none, ⟨[]⟩)
  | p :: ps => if p.ntuples = 0 then iterateSkipEmpty ps else (some p, ⟨ps⟩)

/-- `fetchNextBitmapPage`. -/
def fetchNextBitmapPage {P Q : Type} (env : Env P Q) (m : Machine P Q) :
    Outcome (Machine P Q) Bool :=
  match m.scan.tbm with
  | none => Outcome.ok false m
  | some tbm =>
    if env.USE_ASSERT_CHECKING && !m.scan.needNewBitmapPage then
      Outcome.trap m
    else
      let it : GenericBMIterator :=
        match m.scan.tbmiterator with
        | some it => it
        | none => tbm_generic_begin_iterate tbm
      let r := iterateSkipEmpty it.remaining
      let s1 := { m.scan with tbmiterator := some r.2 }
      match r.1 with
      | some tbmres =>
        Outcome.ok true { m with scan :=
          { s1 with
            tbmres := some tbmres
            iterator := none
            needNewBitmapPage := false
            isLossyBitmapPage := decide (tbmres.ntuples = env.BITMAP_IS_LOSSY)
            recheckTuples := tbmres.recheck } }
      | none => Outcome.ok false { m with scan := s1 }

/-- `BitmapTableScanRecheckTuple`. -/
def BitmapTableScanRecheckTuple {P Q : Type} (env : Env P Q) (m : Machine P Q)
    (slot : TupleTableSlot) : Bool × Machine P Q :=
  if m.scan.isLossyBitmapPage || m.scan.recheckTuples then
    let econtext := ResetExprContext { m.scan.ps_ExprContext with ecxt_scantuple := some slot }
    (env.ExecQual m.scan.bitmapqualorig econtext false,
      { scan := { m.scan with ps_ExprContext := econtext },
        calls := m.calls ++ [ExternalCall.ExecQual] })
  else
    (true, m)

/-- The `ExecScan(&scanState->ss, scanMethods->accessMethod,
scanMethods->recheckMethod)` step of `BitmapTableScanFetchNext`. -/
def execScanStep {P Q : Type} (env : Env P Q) (m : Machine P Q) :
    Option TupleTableSlot × Machine P Q :=
  let scanMethods := getBitmapTableScanMethod m.scan.tableType
  let r := env.ExecScan m.scan scanMethods.accessMethod scanMethods.recheckMethod
  (r.1, { scan := r.2, calls := m.calls ++ [ExternalCall.ExecScan] })

/-- The `while (TupIsNull(slot))` loop of `BitmapTableScanFetchNext`; `fuel`
bounds the number of iterations. -/
def fetchNextLoop {P Q : Type} (env : Env P Q) :
    Nat → Option TupleTableSlot → Machine P Q →
      Outcome (Machine P Q) (Option TupleTableSlot)
  | 0, slot, m => if TupIsNull slot then Outcome.outOfFuel else Outcome.ok slot m
  | fuel + 1, slot, m =>
    if TupIsNull slot then
      match readBitmap env m with
      | Outcome.ok _ m1 =>
        if !m1.scan.needNewBitmapPage then
          let r := execScanStep env m1
          fetchNextLoop env fuel r.1 r.2
        else
          match fetchNextBitmapPage env m1 with
          | Outcome.ok true m2 =>
            let r := execScanStep env m2
            fetchNextLoop env fuel r.1 r.2
          | Outcome.ok false m2 => Outcome.ok slot m2
          | Outcome.elogERROR msg m2 => Outcome.elogERROR msg m2
          | Outcome.trap m2 => Outcome.trap m2
          | Outcome.outOfFuel => Outcome.outOfFuel
      | Outcome.elogERROR msg m1 => Outcome.elogERROR msg m1
      | Outcome.trap m1 => Outcome.trap m1
      | Outcome.outOfFuel => Outcome.outOfFuel
    else
      Outcome.ok slot m

/-- `BitmapTableScanFetchNext`. -/
def BitmapTableScanFetchNext {P Q : Type} (env : Env P Q) (fuel : Nat) (m : Machine P Q) :
    Outcome (Machine P Q) (Option TupleTableSlot) :=
  let r := BitmapTableScanPlanQualTuple m
  fetchNextLoop env fuel (some r.1) r.2

/-- The bitmap the next page fetch works on: the one the scan state holds,
or else the one the child plan returns, when that is a TIDBitmap or a
StreamBitmap. -/
def bitmapInUse {P Q : Type} (env : Env P Q) (s : BitmapTableScanState P Q) : Option Node :=
  match s.tbm with
  | some tbm => some tbm
  | none =>
    match (env.MultiExecProcNode s.lefttree).1 with
    | some tbm =>
      if IsA tbm NodeTag.T_TIDBitmap || IsA tbm NodeTag.T_StreamBitmap then some tbm else none
    | none => none

/-- Pages still to come for a scan state working on bitmap `tbm`: what the
open iterator has left, or all pages of the bitmap when no iterator is open
yet. -/
def pagesAhead {P Q : Type} (s : BitmapTableScanState P Q) (tbm : Node) :
    List TBMIterateResult :=
  match s.tbmiterator with
  | some it => it.remaining
  | none => (tbm_generic_begin_iterate tbm).remaining

/-- The bitmap in use is a TIDBitmap or StreamBitmap and has no remaining page
with a non-zero tuple count. -/
def noPageWithTuples {P Q : Type} (env : Env P Q) (s : BitmapTableScanState P Q) : Bool :=
  match bitmapInUse env s with
  | none => false
  | some tbm =>
    (IsA tbm NodeTag.T_TIDBitmap || IsA tbm NodeTag.T_StreamBitmap) &&
      (pagesAhead s tbm).all (fun p => decide (p.ntuples = 0))

end executor

/-! ## Concrete operators and scan states used as test inputs -/

namespace gpopt

/-- A global aggregate on column 1 created with `fGeneratesDuplicates = true`. -/
def popGlobalDup : CPhysicalAgg :=
  { m_pdrgpcr := [1]
    m_egbaggtype := EGbAggType.EgbaggtypeGlobal
    m_isAggFromSplitDQA := false
    m_aggStage := EAggStage.EsOthers
    m_pdrgpcrMinimal := [1]
    m_fGeneratesDuplicates := true
    m_pdrgpcrArgDQA := none
    m_fMultiStage := false
    m_should_enforce_distribution := true }

/-- A local aggregate on column 1 created with `fGeneratesDuplicates = false`. -/
def popLocalNoDup : CPhysicalAgg :=
  { m_pdrgpcr := [1]
    m_egbaggtype := EGbAggType.EgbaggtypeLocal
    m_isAggFromSplitDQA := false
    m_aggStage := EAggStage.EsOthers
    m_pdrgpcrMinimal := [1]
    m_fGeneratesDuplicates := false
    m_pdrgpcrArgDQA := none
    m_fMultiStage := true
    m_should_enforce_distribution := true }

/-- A handle to an operator that is not a physical aggregate. -/
def popNotAgg : COperator := COperator.Other 7

end gpopt

namespace executor

/-- A sample environment: the child plan returns a TIDBitmap with a single
empty page on its first execution and NULL afterwards; the qual accepts the
tuples whose first value is positive; the access method returns no tuple and
asks for a new page. -/
def sampleEnv : Env Nat Unit :=
  { MultiExecProcNode := fun p =>
      (if p = 0 then some (Node.TIDBitmap [⟨0, 0, false⟩]) else none, p + 1)
    ExecQual := fun _ econtext _ =>
      match econtext.ecxt_scantuple with
      | some slot => decide (0 < slot.tts_values.headD 0)
      | none => false
    ExecScan := fun s _ _ => (none, { s with needNewBitmapPage := true })
    BITMAP_IS_LOSSY := -1
    USE_ASSERT_CHECKING := true }

/-- A sample environment whose child plan returns a node that is no bitmap. -/
def sampleEnvBadChild : Env Nat Unit :=
  { sampleEnv with MultiExecProcNode := fun p => (some (Node.Other 42), p + 1) }

/-- A slot holding the tuple (-5). -/
def sampleSlot : TupleTableSlot := ⟨false, [-5]⟩

/-- A scan state before any bitmap was read. -/
def sampleFresh : Machine Nat Unit :=
  { scan :=
      { ss_ScanTupleSlot := ⟨false, [3]⟩
        ps_ExprContext := ⟨none, 16⟩
        tableType := TableType.TableTypeHeap
        lefttree := 0
        tbm := none
        tbmiterator := none
        tbmres := none
        iterator := none
        needNewBitmapPage := false
        isLossyBitmapPage := false
        recheckTuples := false
        bitmapqualorig := () }
    calls := [] }

/-- A scan state holding a bitmap whose iterator has only empty pages left,
on an exact page that needs no recheck. -/
def sampleExhausted : Machine Nat Unit :=
  { sampleFresh with
    scan :=
      { sampleFresh.scan with
        tbm := some (Node.StreamBitmap [⟨0, 4, false⟩, ⟨1, 0, false⟩, ⟨2, 0, true⟩])
        tbmiterator := some ⟨[⟨1, 0, false⟩, ⟨2, 0, true⟩]⟩
        needNewBitmapPage := true } }

/-- A scan state holding a bitmap whose iterator still has a page with
tuples (after an empty one). -/
def sampleWithPage : Machine Nat Unit :=
  { sampleExhausted with
    scan :=
      { sampleExhausted.scan with
        tbmiterator := some ⟨[⟨1, 0, false⟩, ⟨2, -1, true⟩]⟩ } }

/-- A scan state on a lossy page. -/
def sampleLossy : Machine Nat Unit :=
  { sampleExhausted with
    scan := { sampleExhausted.scan with isLossyBitmapPage := true, needNewBitmapPage := false } }

end executor

/-! ## Properties of `CPhysicalAgg` -/

namespace gpopt

open CPhysicalAgg

/-- C1. For every array of grouping columns, `PdsMaximalHashed` returns either
a hashed distribution whose key is the non-empty sub-array of the given columns
that can be hashed, or, when none of the given columns can be hashed (so no
hashed distribution can be created), the singleton distribution; it returns
neither a random nor a replicated (nor a universal) distribution. -/
theorem PdsMaximalHashed_hashed_or_singleton (fHashable : CColRef → Bool)
    (colref_array : CColRefArray) :
    ((∃ keys, PdsMaximalHashed fHashable colref_array = CDistributionSpec.Hashed keys ∧
        keys ≠ [] ∧ keys = colref_array.filter fHashable ∧
        (∀ c ∈ keys, c ∈ colref_array ∧ fHashable c = true)) ∨
      (PdsMaximalHashed fHashable colref_array = CDistributionSpec.Singleton ∧
        ∀ c ∈ colref_array, fHashable c = false)) ∧
    PdsMaximalHashed fHashable colref_array ≠ CDistributionSpec.Random ∧
    PdsMaximalHashed fHashable colref_array ≠ CDistributionSpec.Replicated ∧
    PdsMaximalHashed fHashable colref_array ≠ CDistributionSpec.Universal := by
  unfold PdsMaximalHashed
  cases hf : colref_array.filter fHashable with
  | nil =>
    refine ⟨Or.inr ⟨rfl, ?_⟩, by simp, by simp, by simp⟩
    intro c hc
    have hnot : c ∉ colref_array.filter fHashable := by simp [hf]
    cases hh : fHashable c with
    | false => rfl
    | true => exact absurd (List.mem_filter.mpr ⟨hc, hh⟩) hnot
  | cons k ks =>
    refine ⟨Or.inl ⟨k :: ks, rfl, by simp, rfl, ?_⟩, by simp, by simp, by simp⟩
    intro c hc
    have hmem : c ∈ colref_array.filter fHashable := by rw [hf]; exact hc
    exact List.mem_filter.mp hmem

/-- C2 (as stated, refuted). A global aggregate created with
`fGeneratesDuplicates = true` reports `FGeneratesDuplicates() = true`, and a
local aggregate created with `fGeneratesDuplicates = false` reports `false`:
the answer is not determined by the aggregation stage. -/
theorem FGeneratesDuplicates_not_by_stage :
    ¬ (∀ op : CPhysicalAgg,
        (op.m_egbaggtype = EGbAggType.EgbaggtypeLocal → FGeneratesDuplicates op = true) ∧
        (FGlobal op = true → FGeneratesDuplicates op = false)) ∧
    FGlobal popGlobalDup = true ∧ FGeneratesDuplicates popGlobalDup = true ∧
    popLocalNoDup.m_egbaggtype = EGbAggType.EgbaggtypeLocal ∧
    FGeneratesDuplicates popLocalNoDup = false := by
  refine ⟨?_, by decide, by decide, by decide, by decide⟩
  intro h
  have hg := (h popGlobalDup).2 (by decide)
  exact absurd hg (by decide)

/-- C2 (amended). For every aggregate operator, `FGeneratesDuplicates` returns
the stored generates-duplicates flag `m_fGeneratesDuplicates`; replacing the
aggregation stage (or the aggregate type) by any other value leaves the answer
unchanged, and two operators give the same answer exactly when their flags
agree. -/
theorem FGeneratesDuplicates_is_stored_flag (op op2 : CPhysicalAgg)
    (egbaggtype : EGbAggType) (aggStage : EAggStage) :
    FGeneratesDuplicates op = op.m_fGeneratesDuplicates ∧
    FGeneratesDuplicates { op with m_egbaggtype := egbaggtype, m_aggStage := aggStage } =
      FGeneratesDuplicates op ∧
    (FGeneratesDuplicates op = FGeneratesDuplicates op2 ↔
      op.m_fGeneratesDuplicates = op2.m_fGeneratesDuplicates) :=
  ⟨rfl, rfl, Iff.rfl⟩

/-- C3 (as stated, refuted). In a release build, where `GPOS_ASSERT` checks
nothing, `PopConvert` applied to an operator that is not a physical aggregate
does not fail: it returns the null pointer. -/
theorem PopConvert_release_no_failure :
    (∀ popAgg, popNotAgg ≠ COperator.PhysicalAgg popAgg) ∧
    CPhysicalAgg.PopConvert false popNotAgg = AssertResult.returned none ∧
    ¬ (∀ (fDebug : Bool) (pop : COperator),
        CPhysicalAgg.PopConvert fDebug pop = AssertResult.assertionFailure ↔
          ∀ popAgg, pop ≠ COperator.PhysicalAgg popAgg) := by
  have hne : ∀ popAgg, popNotAgg ≠ COperator.PhysicalAgg popAgg := by
    intro popAgg h
    cases h
  refine ⟨hne, rfl, ?_⟩
  intro h
  have hfail := (h false popNotAgg).mpr hne
  cases hfail

/-- C3 (amended). In a debug build (assertions compiled in), `PopConvert(pop)`
fails with an assertion failure if and only if `pop` is not a physical
aggregate operator; in every build, a physical aggregate is returned as the
same operator with every attribute unchanged; in a release build nothing is
asserted and the result is that of the dynamic cast, the null pointer for an
operator that is not a physical aggregate. -/
theorem PopConvert_debug_fails_iff (pop : COperator) (popAgg : CPhysicalAgg) (fDebug : Bool) :
    (CPhysicalAgg.PopConvert true pop = AssertResult.assertionFailure ↔
      ∀ a, pop ≠ COperator.PhysicalAgg a) ∧
    CPhysicalAgg.PopConvert fDebug (COperator.PhysicalAgg popAgg) =
      AssertResult.returned (some popAgg) ∧
    CPhysicalAgg.PopConvert false pop = AssertResult.returned (dynamic_cast_CPhysicalAgg pop) ∧
    (CPhysicalAgg.PopConvert false pop = AssertResult.returned none ↔
      ∀ a, pop ≠ COperator.PhysicalAgg a) := by
  refine ⟨?_, ?_, rfl, ?_⟩
  · cases pop with
    | PhysicalAgg a =>
      constructor
      · intro h; cases h
      · intro h; exact absurd rfl (h a)
    | Other k =>
      constructor
      · intro _ a h; cases h
      · intro _; rfl
  · cases fDebug <;> rfl
  · cases pop with
    | PhysicalAgg a =>
      constructor
      · intro h; cases h
      · intro h; exact absurd rfl (h a)
    | Other k =>
      constructor
      · intro _ a h; cases h
      · intro _; rfl

/-- C4. For every aggregate operator and every expression handle,
`PpimDerive` is the partition index map of child 0 and `PpfmDerive` is the
partition filter map of child 0, whatever the operator's own state, the memory
pool and the derivation context are. -/
theorem PpimDerive_PpfmDerive_pass_thru_outer {PIM PFM MP CTX : Type}
    (self other : CPhysicalAgg) (mp mp2 : MP) (exprhdl : CExpressionHandle PIM PFM)
    (pdpctxt pdpctxt2 : CTX) :
    CPhysicalAgg.PpimDerive self mp exprhdl pdpctxt = (exprhdl.Pdpplan 0).m_ppim ∧
    CPhysicalAgg.PpfmDerive self mp exprhdl = (exprhdl.Pdpplan 0).m_ppfm ∧
    CPhysicalAgg.PpimDerive other mp2 exprhdl pdpctxt2 =
      CPhysicalAgg.PpimDerive self mp exprhdl pdpctxt ∧
    CPhysicalAgg.PpfmDerive other mp2 exprhdl = CPhysicalAgg.PpfmDerive self mp exprhdl :=
  ⟨rfl, rfl, rfl, rfl⟩

/-- C5. For every aggregate operator, whatever its aggregate type, stage and
flags, `FInputOrderSensitive` returns true. -/
theorem FInputOrderSensitive_always (op : CPhysicalAgg) :
    FInputOrderSensitive op = true :=
  rfl

end gpopt

/-! ## Properties of the bitmap table scan -/

namespace executor

/-- When every remaining page is empty, the skipping loop runs the iterator
dry and finds no page. -/
theorem iterateSkipEmpty_all_empty (remaining : List TBMIterateResult)
    (h : remaining.all (fun p => decide (p.ntuples = 0)) = true) :
    iterateSkipEmpty remaining = (none, ⟨[]⟩) := by
  induction remaining with
  | nil => rfl
  | cons p ps ih =>
    simp only [List.all_cons, Bool.and_eq_true, decide_eq_true_eq] at h
    simp only [iterateSkipEmpty, h.1, if_true]
    exact ih h.2

/-- A page found by the skipping loop has a non-zero tuple count. -/
theorem iterateSkipEmpty_found_nonzero (remaining : List TBMIterateResult)
    (p : TBMIterateResult) (h : (iterateSkipEmpty remaining).1 = some p) :
    p.ntuples ≠ 0 := by
  induction remaining with
  | nil => simp [iterateSkipEmpty] at h
  | cons q qs ih =>
    by_cases hq : q.ntuples = 0
    · simp only [iterateSkipEmpty, hq, if_true] at h
      exact ih h
    · simp only [iterateSkipEmpty, hq, if_false, Option.some.injEq] at h
      rw [← h]
      exact hq

/-- C6. For every scan state and tuple slot: when the current page is neither
lossy nor flagged for recheck, `BitmapTableScanRecheckTuple` returns true and
leaves the scan state and the record of calls untouched (the qual is not
evaluated); when either flag is set, it returns the value of `ExecQual` on
`bitmapqualorig` in the expression context whose scan tuple is the given slot,
and that evaluation is the one call it makes. -/
theorem BitmapTableScanRecheckTuple_spec {P Q : Type} (env : Env P Q) (m : Machine P Q)
    (slot : TupleTableSlot) :
    (m.scan.isLossyBitmapPage = false → m.scan.recheckTuples = false →
      BitmapTableScanRecheckTuple env m slot = (true, m)) ∧
    (m.scan.isLossyBitmapPage = true ∨ m.scan.recheckTuples = true →
      (BitmapTableScanRecheckTuple env m slot).1 =
        env.ExecQual m.scan.bitmapqualorig
          (ResetExprContext { m.scan.ps_ExprContext with ecxt_scantuple := some slot }) false ∧
      (BitmapTableScanRecheckTuple env m slot).2.scan.ps_ExprContext.ecxt_scantuple = some slot ∧
      (BitmapTableScanRecheckTuple env m slot).2.calls = m.calls ++ [ExternalCall.ExecQual]) := by
  constructor
  · intro hl hr
    simp [BitmapTableScanRecheckTuple, hl, hr]
  · intro h
    have hc : (m.scan.isLossyBitmapPage || m.scan.recheckTuples) = true := by
      rcases h with h | h <;> simp [h]
    simp [BitmapTableScanRecheckTuple, hc, ResetExprContext]

/-- C6, on concrete pages: on an exact page the tuple (-5) passes unchecked and
nothing is evaluated; on a lossy page the qual is evaluated on it and rejects
it. -/
theorem BitmapTableScanRecheckTuple_spec_witness :
    BitmapTableScanRecheckTuple sampleEnv sampleExhausted sampleSlot = (true, sampleExhausted) ∧
    (BitmapTableScanRecheckTuple sampleEnv sampleLossy sampleSlot).1 = false ∧
    (BitmapTableScanRecheckTuple sampleEnv sampleLossy sampleSlot).2.calls =
      [ExternalCall.ExecQual] := by
  refine ⟨(BitmapTableScanRecheckTuple_spec sampleEnv sampleExhausted sampleSlot).1 rfl rfl, ?_, ?_⟩
  · rw [((BitmapTableScanRecheckTuple_spec sampleEnv sampleLossy sampleSlot).2 (Or.inl rfl)).1]
    decide
  · exact ((BitmapTableScanRecheckTuple_spec sampleEnv sampleLossy sampleSlot).2 (Or.inl rfl)).2.2

/-- C7. For every scan state that needs a new bitmap page and whose bitmap
(the one it holds, or the valid one the child plan returns when it holds none)
has no remaining page with a non-zero tuple count, `BitmapTableScanFetchNext`
returns, after one pass through its loop, the cleared scan tuple slot, which
is empty; `ExecScan` is not invoked (the only call possibly made is the one
`MultiExecProcNode` that reads the bitmap), and the state still needs a new
page. -/
theorem BitmapTableScanFetchNext_no_page {P Q : Type} (env : Env P Q) (m : Machine P Q)
    (fuel : Nat) (hneed : m.scan.needNewBitmapPage = true)
    (hpages : noPageWithTuples env m.scan = true) :
    ∃ m2 : Machine P Q,
      BitmapTableScanFetchNext env (fuel + 1) m =
        Outcome.ok (some (ExecClearTuple m.scan.ss_ScanTupleSlot)) m2 ∧
      TupIsNull (some (ExecClearTuple m.scan.ss_ScanTupleSlot)) = true ∧
      m2.scan.ss_ScanTupleSlot = ExecClearTuple m.scan.ss_ScanTupleSlot ∧
      m2.scan.needNewBitmapPage = true ∧
      (m2.calls = m.calls ∨ m2.calls = m.calls ++ [ExternalCall.MultiExecProcNode]) ∧
      ExternalCall.ExecScan ∉ m2.calls.drop m.calls.length := by
  rcases m with ⟨⟨slot0, ectx, tt, lt, tbm, it, res, iter, need, lossy, recheck, qual⟩, calls⟩
  simp only at hneed
  subst hneed
  cases tbm with
  | some b =>
    simp only [noPageWithTuples, bitmapInUse, Bool.and_eq_true] at hpages
    have hall := iterateSkipEmpty_all_empty _ hpages.2
    cases it with
    | some i =>
      simp only [pagesAhead] at hall
      simp [BitmapTableScanFetchNext, BitmapTableScanPlanQualTuple, fetchNextLoop, readBitmap,
        fetchNextBitmapPage, TupIsNull, ExecClearTuple, hall]
    | none =>
      simp only [pagesAhead] at hall
      simp [BitmapTableScanFetchNext, BitmapTableScanPlanQualTuple, fetchNextLoop, readBitmap,
        fetchNextBitmapPage, TupIsNull, ExecClearTuple, hall]
  | none =>
    simp only [noPageWithTuples, bitmapInUse] at hpages
    cases hr : (env.MultiExecProcNode lt).1 with
    | none => simp [hr] at hpages
    | some b =>
      simp only [hr] at hpages
      cases hb : (IsA b NodeTag.T_TIDBitmap || IsA b NodeTag.T_StreamBitmap) with
      | false => simp [hb] at hpages
      | true =>
        simp only [hb, if_true, Bool.true_and] at hpages
        have hall := iterateSkipEmpty_all_empty _ hpages
        cases it with
        | some i =>
          simp only [pagesAhead] at hall
          simp [BitmapTableScanFetchNext, BitmapTableScanPlanQualTuple, fetchNextLoop, readBitmap,
            fetchNextBitmapPage, TupIsNull, ExecClearTuple, hall, hr, hb]
        | none =>
          simp only [pagesAhead] at hall
          simp [BitmapTableScanFetchNext, BitmapTableScanPlanQualTuple, fetchNextLoop, readBitmap,
            fetchNextBitmapPage, TupIsNull, ExecClearTuple, hall, hr, hb]

/-- C7, on a concrete state: the iterator of `sampleExhausted` has two empty
pages left, and the fetch returns the cleared slot. -/
theorem BitmapTableScanFetchNext_no_page_witness :
    sampleExhausted.scan.needNewBitmapPage = true ∧
    noPageWithTuples sampleEnv sampleExhausted.scan = true ∧
    ∃ m2 : Machine Nat Unit,
      BitmapTableScanFetchNext sampleEnv (0 + 1) sampleExhausted =
        Outcome.ok (some (ExecClearTuple sampleExhausted.scan.ss_ScanTupleSlot)) m2 ∧
      TupIsNull (some (ExecClearTuple sampleExhausted.scan.ss_ScanTupleSlot)) = true ∧
      m2.scan.ss_ScanTupleSlot = ExecClearTuple sampleExhausted.scan.ss_ScanTupleSlot ∧
      m2.scan.needNewBitmapPage = true ∧
      (m2.calls = sampleExhausted.calls ∨
        m2.calls = sampleExhausted.calls ++ [ExternalCall.MultiExecProcNode]) ∧
      ExternalCall.ExecScan ∉ m2.calls.drop sampleExhausted.calls.length :=
  ⟨rfl, by decide,
    BitmapTableScanFetchNext_no_page sampleEnv sampleExhausted 0 rfl (by decide)⟩

/-- The hypothesis of `BitmapTableScanFetchNext_no_page` on the pages is
needed: with a lossy page left, the page is fetched (its flags are taken over)
and `ExecScan` is invoked; here the access method returns no tuple, the next
fetch finds the bitmap exhausted and the loop ends in its second pass. -/
theorem BitmapTableScanFetchNext_with_page :
    noPageWithTuples sampleEnv sampleWithPage.scan = false ∧
    ∃ m2 : Machine Nat Unit,
      BitmapTableScanFetchNext sampleEnv 2 sampleWithPage = Outcome.ok none m2 ∧
      m2.calls = [ExternalCall.ExecScan] ∧
      m2.scan.isLossyBitmapPage = true ∧ m2.scan.recheckTuples = true :=
  ⟨by decide, _, rfl, rfl, rfl, rfl⟩

/-- C8. `readBitmap` returns at once, with the state and the record of calls
unchanged (the child plan is not executed), when the scan state already holds
a bitmap. Otherwise it executes the child plan once and either raises the
error "unrecognized result from subplan" or returns; it raises the error if and
only if the child's result is null or is a node that is neither a TIDBitmap
nor a StreamBitmap; on error `tbm` and `needNewBitmapPage` are as before the
call; on return `tbm` is the child's result and `needNewBitmapPage` is true. -/
theorem readBitmap_spec {P Q : Type} (env : Env P Q) (m : Machine P Q) :
    (∀ tbm, m.scan.tbm = some tbm → readBitmap env m = Outcome.ok () m) ∧
    (m.scan.tbm = none →
      ((∃ m2, readBitmap env m = Outcome.elogERROR "unrecognized result from subplan" m2) ↔
        ((env.MultiExecProcNode m.scan.lefttree).1 = none ∨
          ∃ k, (env.MultiExecProcNode m.scan.lefttree).1 = some (Node.Other k))) ∧
      ((∃ m2, readBitmap env m = Outcome.ok () m2) ∨
        ∃ m2, readBitmap env m = Outcome.elogERROR "unrecognized result from subplan" m2) ∧
      (∀ msg m2, readBitmap env m = Outcome.elogERROR msg m2 →
        msg = "unrecognized result from subplan" ∧
        m2.scan.tbm = m.scan.tbm ∧
        m2.scan.needNewBitmapPage = m.scan.needNewBitmapPage ∧
        m2.calls = m.calls ++ [ExternalCall.MultiExecProcNode]) ∧
      (∀ u m2, readBitmap env m = Outcome.ok u m2 →
        m2.scan.tbm = (env.MultiExecProcNode m.scan.lefttree).1 ∧
        (∃ pages, m2.scan.tbm = some (Node.TIDBitmap pages) ∨
          m2.scan.tbm = some (Node.StreamBitmap pages)) ∧
        m2.scan.needNewBitmapPage = true ∧
        m2.calls = m.calls ++ [ExternalCall.MultiExecProcNode])) := by
  rcases m with ⟨⟨slot0, ectx, tt, lt, tbm, it, res, iter, need, lossy, recheck, qual⟩, calls⟩
  constructor
  · intro b hb
    simp only at hb
    subst hb
    rfl
  · intro hnone
    simp only at hnone
    subst hnone
    cases hr : (env.MultiExecProcNode lt).1 with
    | none =>
      simp [readBitmap, hr]
    | some n =>
      cases n with
      | TIDBitmap pages => simp [readBitmap, hr, IsA, nodeTag]
      | StreamBitmap pages => simp [readBitmap, hr, IsA, nodeTag]
      | Other k => simp [readBitmap, hr, IsA, nodeTag]

/-- C8, on concrete states: with a bitmap held nothing happens; a child that
returns a TIDBitmap has it stored; a child that returns another node makes
`readBitmap` raise the error. -/
theorem readBitmap_spec_witness :
    readBitmap sampleEnv sampleExhausted = Outcome.ok () sampleExhausted ∧
    ((∃ m2, readBitmap sampleEnv sampleFresh = Outcome.ok () m2) ∨
      ∃ m2, readBitmap sampleEnv sampleFresh =
        Outcome.elogERROR "unrecognized result from subplan" m2) ∧
    ∃ m2, readBitmap sampleEnvBadChild sampleFresh =
      Outcome.elogERROR "unrecognized result from subplan" m2 :=
  ⟨(readBitmap_spec sampleEnv sampleExhausted).1 _ rfl,
    ((readBitmap_spec sampleEnv sampleFresh).2 rfl).2.1,
    ((readBitmap_spec sampleEnvBadChild sampleFresh).2 rfl).1.mpr (Or.inr ⟨42, rfl⟩)⟩

end executor
